import Mathlib

/-!
Verification of the duchat reminder bot.

Shallow embedding of the reminder store (`src/app/db.py`), the delivery
loop (`src/app/worker.py`) and the capture-conversation datetime step
(`src/app/handlers/reminders.py`).

Modelling conventions:
* SQLite TEXT values are `List Char`; the binary collation used by SQLite
  to compare TEXT (`memcmp`) is `sqliteCmp` below, which agrees with it on
  ASCII data.
* The `status` TEXT column only ever holds one of the five literals the
  application writes, so it is modelled by the inductive `Status`.
* The store's `is_sent` INTEGER column holds 0 or 1 and is modelled as `Bool`.
* `datetime` values carry minute precision exactly as the application
  stores them (`isoformat(timespec="minutes")`); `DateTime` holds the five
  fields and `dtCompare` is Python's field-lexicographic comparison.
* Schema presence of the three columns added by migration is modelled by
  the three `has…Column` flags of `Store`; `ensure_schema` performs the
  `ALTER TABLE … ADD COLUMN … DEFAULT` steps (every existing row receives
  the default) followed by the backfill `UPDATE`.
-/

inductive Status where
  | scheduled
  | sent
  | completed
  | cancelled
  | failed
deriving DecidableEq, Repr

structure DateTime where
  year : Nat
  month : Nat
  day : Nat
  hour : Nat
  minute : Nat
deriving DecidableEq, Repr

/-- Python `datetime` comparison restricted to minute precision:
lexicographic on (year, month, day, hour, minute). -/
def dtCompare (a b : DateTime) : Ordering :=
  (compare a.year b.year).then ((compare a.month b.month).then
    ((compare a.day b.day).then ((compare a.hour b.hour).then
      (compare a.minute b.minute))))

/-- Python `a <= b` on datetimes (minute precision). -/
def dtLe (a b : DateTime) : Bool :=
  match dtCompare a b with
  | .gt => false
  | _ => true

/-- SQLite's binary TEXT collation (memcmp on the UTF-8 bytes; on ASCII
data this is codepoint-lexicographic order with the shorter prefix first). -/
def sqliteCmp : List Char → List Char → Ordering
  | [], [] => .eq
  | [], _ :: _ => .lt
  | _ :: _, [] => .gt
  | a :: as, b :: bs => (compare a.toNat b.toNat).then (sqliteCmp as bs)

/-- SQLite `x <= y` on TEXT values. -/
def sqliteLe (x y : List Char) : Bool :=
  match sqliteCmp x y with
  | .gt => false
  | _ => true

def digitChar10 : Nat → Char
  | 0 => '0'
  | 1 => '1'
  | 2 => '2'
  | 3 => '3'
  | 4 => '4'
  | 5 => '5'
  | 6 => '6'
  | 7 => '7'
  | 8 => '8'
  | _ => '9'

/-- Zero-padded fixed-width decimal rendering, most significant digit first. -/
def padNum : Nat → Nat → List Char
  | 0, _ => []
  | w + 1, n => digitChar10 (n / 10 ^ w % 10) :: padNum w (n % 10 ^ w)

/-- Python `datetime.isoformat(timespec="minutes")`: `YYYY-MM-DDTHH:MM`. -/
def isoMin (d : DateTime) : List Char :=
  padNum 4 d.year ++ '-' :: (padNum 2 d.month ++ '-' :: (padNum 2 d.day ++
    'T' :: (padNum 2 d.hour ++ ':' :: padNum 2 d.minute)))

structure Row where
  id : Nat
  chat_id : Int
  creator_id : Int
  text : String
  remind_at : List Char
  is_sent : Bool
  status : Status
  mention_target_id : Option Int
  mention_target_name : Option String
  created_at : List Char
deriving DecidableEq, Repr

structure Store where
  hasStatusColumn : Bool
  hasMentionIdColumn : Bool
  hasMentionNameColumn : Bool
  rows : List Row
  nextId : Nat
deriving DecidableEq, Repr

/-- The WHERE clause of the backfill UPDATE in `ReminderStore._ensure_schema`:
`status NOT IN ('scheduled','sent') OR (is_sent = 1 AND status != 'sent')
OR (is_sent = 0 AND status != 'scheduled')`. -/
def migrationNeedsFix (r : Row) : Bool :=
  (r.status != .scheduled && r.status != .sent) ||
    (r.is_sent && r.status != .sent) ||
    (!r.is_sent && r.status != .scheduled)

/-- The SET clause of the backfill UPDATE:
`status = CASE WHEN is_sent = 1 THEN 'sent' ELSE 'scheduled' END`. -/
def migrationFix (r : Row) : Row :=
  if migrationNeedsFix r then
    { r with status := if r.is_sent then .sent else .scheduled }
  else r

/-- `ReminderStore._ensure_schema` (src/app/db.py:20-74): add any missing
columns with their defaults (`status TEXT NOT NULL DEFAULT 'scheduled'`,
NULL for the two mention columns), then run the backfill UPDATE. -/
def ensure_schema (s : Store) : Store :=
  let rows1 := if s.hasStatusColumn then s.rows
    else s.rows.map (fun r => { r with status := .scheduled })
  let rows2 := if s.hasMentionIdColumn then rows1
    else rows1.map (fun r => { r with mention_target_id := none })
  let rows3 := if s.hasMentionNameColumn then rows2
    else rows2.map (fun r => { r with mention_target_name := none })
  { hasStatusColumn := true, hasMentionIdColumn := true,
    hasMentionNameColumn := true, rows := rows3.map migrationFix,
    nextId := s.nextId }

/-- `ReminderStore.add_reminder` (src/app/db.py:76-114). The INSERT lists no
`is_sent` value, so the column default 0 applies; `status` is the literal
'scheduled'; `remind_at` is stored as `isoformat(timespec="minutes")` text.
`created_at` (`datetime.utcnow().isoformat(timespec="seconds")`) is passed
in as the environment-supplied clock value. Returns `cur.lastrowid`. -/
def add_reminder (chat_id creator_id : Int) (text : String)
    (remind_at : DateTime) (mention_target_id : Option Int)
    (mention_target_name : Option String) (created_at : List Char)
    (s : Store) : Nat × Store :=
  let row : Row :=
    { id := s.nextId, chat_id := chat_id, creator_id := creator_id,
      text := text, remind_at := isoMin remind_at, is_sent := false,
      status := .scheduled, mention_target_id := mention_target_id,
      mention_target_name := mention_target_name, created_at := created_at }
  (s.nextId, { s with rows := s.rows ++ [row], nextId := s.nextId + 1 })

/-- WHERE clause of `due_reminders`:
`status = 'scheduled' AND is_sent = 0 AND remind_at <= ?`. -/
def dueRowPred (now : DateTime) (r : Row) : Bool :=
  r.status == .scheduled && !r.is_sent && sqliteLe r.remind_at (isoMin now)

/-- ORDER BY remind_at ASC comparison. -/
def remindAtLe (a b : Row) : Bool := sqliteLe a.remind_at b.remind_at

/-- `ReminderStore.due_reminders` (src/app/db.py:116-130): SELECT the rows
matching the WHERE clause, ORDER BY remind_at ASC, LIMIT `limit`. -/
def due_reminders (now : DateTime) (limit : Nat) (s : Store) : List Row :=
  (((s.rows.filter (dueRowPred now)).mergeSort remindAtLe).take limit)

/-- `ReminderStore.mark_sent` (src/app/db.py:132-148). An empty id list
returns before touching the connection (no UPDATE, no commit); otherwise
one unconditional `UPDATE … SET is_sent = 1, status = 'sent' WHERE id IN …`
runs and is committed. The Bool records whether a commit was executed. -/
def mark_sent (ids : List Nat) (s : Store) : Store × Bool :=
  if ids.isEmpty then (s, false)
  else
    ({ s with rows := s.rows.map (fun r =>
        if ids.contains r.id then { r with is_sent := true, status := .sent }
        else r) }, true)

/-- Modelled from the spec: `markFailed(id)` is called by the delivery loop
(src/app/worker.py:63) and exercised by tests/test_reminder_store.py, but
its definition is missing from src/app/db.py. Per spec §4.1 ("transitions
`scheduled` → `failed`") and §9 (every mutating operation is a single
conditional transition: old-state check + new-state write) it is one
conditional UPDATE scoped to the given id. -/
def mark_failed (reminder_id : Nat) (s : Store) : Store :=
  { s with rows := s.rows.map (fun r =>
      if r.id == reminder_id && r.status == .scheduled then
        { r with status := .failed }
      else r) }

/-- Modelled from the spec: `cancel_reminder` is called by the handlers
(src/app/handlers/reminders.py:218, 342) and exercised by the tests, but is
missing from src/app/db.py. Per spec §4.1 it succeeds only if the row
exists, matches `conversationId`/`creatorId`, and its status is
`scheduled` (the state machine defines cancellation from `scheduled` only,
and the test asserts a completed item cannot be cancelled); it returns a
Bool and never raises. Expressed as one conditional UPDATE whose success
is its row count. -/
def cancel_reminder (reminder_id : Nat) (chat_id creator_id : Int)
    (s : Store) : Bool × Store :=
  let hit : Row → Bool := fun r =>
    r.id == reminder_id && r.chat_id == chat_id &&
      r.creator_id == creator_id && r.status == .scheduled
  (s.rows.any hit,
    { s with rows := s.rows.map (fun r =>
        if hit r then { r with status := .cancelled } else r) })

/-- Modelled from the spec: `complete_reminder` is called by the handlers
(src/app/handlers/reminders.py:235, 336) and exercised by the tests, but is
missing from src/app/db.py. Per spec §4.1 it succeeds from `scheduled` or
`sent` and returns false from any other combination, matching on
`conversationId`/`creatorId`. -/
def complete_reminder (reminder_id : Nat) (chat_id creator_id : Int)
    (s : Store) : Bool × Store :=
  let hit : Row → Bool := fun r =>
    r.id == reminder_id && r.chat_id == chat_id &&
      r.creator_id == creator_id &&
      (r.status == .scheduled || r.status == .sent)
  (s.rows.any hit,
    { s with rows := s.rows.map (fun r =>
        if hit r then { r with status := .completed } else r) })

/-- Modelled from the spec: `reschedule_reminder` is called by the handlers
(src/app/handlers/reminders.py:265) and exercised by the tests, but is
missing from src/app/db.py. Per spec §4.1 it succeeds only while
`status = scheduled`, updating `remindAt` in place with `id` and `status`
unchanged. (The strictly-future check on the new time is performed by the
caller `handle_move` before this operation is invoked.) -/
def reschedule_reminder (reminder_id : Nat) (chat_id creator_id : Int)
    (remind_at : DateTime) (s : Store) : Bool × Store :=
  let hit : Row → Bool := fun r =>
    r.id == reminder_id && r.chat_id == chat_id &&
      r.creator_id == creator_id && r.status == .scheduled
  (s.rows.any hit,
    { s with rows := s.rows.map (fun r =>
        if hit r then { r with remind_at := isoMin remind_at } else r) })

/-- One iteration of the per-candidate loop body of `reminder_worker`
(src/app/worker.py:25-63): a successful send appends the id to `sent_ids`;
a send error is caught and `mark_failed` is called for that single id,
after which the loop continues with the next candidate. `sendOk` is the
outcome of the injected send capability for the given row. -/
def workerStep (sendOk : Row → Bool) (acc : Store × List Nat) (r : Row) :
    Store × List Nat :=
  if sendOk r then (acc.1, acc.2 ++ [r.id])
  else (mark_failed r.id acc.1, acc.2)

/-- One tick of `reminder_worker` (src/app/worker.py:20-66): fetch the due
batch (default limit 50), process every candidate, then commit the
accumulated successes with one `mark_sent` call if any. -/
def reminder_worker_tick (now : DateTime) (sendOk : Row → Bool)
    (s : Store) : Store :=
  let due := due_reminders now 50 s
  let res := due.foldl (workerStep sendOk) (s, [])
  if res.2.isEmpty then res.1 else (mark_sent res.2 res.1).1

/-- Characters Python treats as whitespace for `str.strip` and `\s`
(ASCII range; the inputs at hand are ASCII). -/
def isPySpace (c : Char) : Bool :=
  c == ' ' || c == '\t' || c == '\n' || c == '\r' || c == '\x0b' || c == '\x0c'

/-- Python `str.strip()`. -/
def stripChars (l : List Char) : List Char :=
  ((l.dropWhile isPySpace).reverse.dropWhile isPySpace).reverse

def digitVal (c : Char) : Nat := c.toNat - 48

def charBetween (lo hi c : Char) : Bool :=
  lo.toNat ≤ c.toNat && c.toNat ≤ hi.toNat

/-- A two-character numeric field alternative, first character constrained
by `p1`, second by `p2` (a branch such as `1[0-2]` of CPython's
`_strptime` field regexes). -/
def altTwo (p1 p2 : Char → Bool) : List Char → Option (Nat × List Char)
  | c1 :: c2 :: rest =>
    if p1 c1 && p2 c2 then some (10 * digitVal c1 + digitVal c2, rest)
    else none
  | _ => none

/-- A one-character numeric field alternative (a branch such as `[1-9]`). -/
def altOne (p : Char → Bool) : List Char → Option (Nat × List Char)
  | c :: rest => if p c then some (digitVal c, rest) else none
  | _ => none

/-- Regex alternation with backtracking: try the alternatives in order,
and on each local success run the continuation `k`; if `k` fails, fall
through to the next alternative, exactly as the `re` engine does. -/
def tryAlts (k : Nat → List Char → Option DateTime) :
    List (List Char → Option (Nat × List Char)) → List Char → Option DateTime
  | [], _ => none
  | a :: rest, s =>
    match a s with
    | some (n, s') =>
      match k n s' with
      | some d => some d
      | none => tryAlts k rest s
    | none => tryAlts k rest s

/-- CPython `_strptime` regex for `%m`: `(1[0-2]|0[1-9]|[1-9])`. -/
def monthAlts : List (List Char → Option (Nat × List Char)) :=
  [altTwo (· == '1') (charBetween '0' '2'),
   altTwo (· == '0') (charBetween '1' '9'),
   altOne (charBetween '1' '9')]

/-- CPython `_strptime` regex for `%d`: `(3[01]|[12]\d|0[1-9]|[1-9])`. -/
def dayAlts : List (List Char → Option (Nat × List Char)) :=
  [altTwo (· == '3') (charBetween '0' '1'),
   altTwo (charBetween '1' '2') (charBetween '0' '9'),
   altTwo (· == '0') (charBetween '1' '9'),
   altOne (charBetween '1' '9')]

/-- CPython `_strptime` regex for `%H`: `(2[0-3]|[0-1]\d|\d)`. -/
def hourAlts : List (List Char → Option (Nat × List Char)) :=
  [altTwo (· == '2') (charBetween '0' '3'),
   altTwo (charBetween '0' '1') (charBetween '0' '9'),
   altOne (charBetween '0' '9')]

/-- CPython `_strptime` regex for `%M`: `([0-5]\d|\d)`. -/
def minuteAlts : List (List Char → Option (Nat × List Char)) :=
  [altTwo (charBetween '0' '5') (charBetween '0' '9'),
   altOne (charBetween '0' '9')]

/-- CPython `_strptime` regex for `%Y`: exactly four digits `\d\d\d\d`. -/
def matchYear : List Char → Option (Nat × List Char)
  | c1 :: c2 :: c3 :: c4 :: rest =>
    if c1.isDigit && c2.isDigit && c3.isDigit && c4.isDigit then
      some (1000 * digitVal c1 + 100 * digitVal c2 + 10 * digitVal c3 +
        digitVal c4, rest)
    else none
  | _ => none

/-- A literal separator character of the format string. -/
def matchLit (c : Char) : List Char → Option (List Char)
  | d :: rest => if d == c then some rest else none
  | _ => none

/-- The literal space of the format string, compiled by `_strptime` to
`\s+`: at least one whitespace character, matched greedily (the following
field starts with a digit, so greediness never needs to give back). -/
def matchWs (s : List Char) : Option (List Char) :=
  let s' := s.dropWhile isPySpace
  if s'.length < s.length then some s' else none

def isLeapYear (y : Nat) : Bool :=
  y % 4 == 0 && (y % 100 != 0 || y % 400 == 0)

def daysInMonth (y m : Nat) : Nat :=
  if m == 2 then (if isLeapYear y then 29 else 28)
  else if m == 4 || m == 6 || m == 9 || m == 11 then 30
  else 31

/-- The `datetime(...)` constructor validation performed by `strptime`
after the regex match: MINYEAR ≤ year ≤ MAXYEAR, 1 ≤ month ≤ 12,
1 ≤ day ≤ days in that month, hour ≤ 23, minute ≤ 59. -/
def mkDatetime (y mo d h mi : Nat) : Option DateTime :=
  if 1 ≤ y && y ≤ 9999 && 1 ≤ mo && mo ≤ 12 && 1 ≤ d &&
      d ≤ daysInMonth y mo && h ≤ 23 && mi ≤ 59 then
    some ⟨y, mo, d, h, mi⟩
  else none

/-- `parse_datetime` (src/app/handlers/reminders.py:27-30):
`datetime.strptime(user_input.strip(), "%Y-%m-%d %H:%M")`, returning
`none` where Python raises ValueError (regex mismatch, unconverted
trailing data, or an invalid calendar date). -/
def parse_datetime (input : String) : Option DateTime :=
  match matchYear (stripChars input.toList) with
  | none => none
  | some (y, s1) =>
    match matchLit '-' s1 with
    | none => none
    | some s2 =>
      tryAlts (fun mo s3 =>
        match matchLit '-' s3 with
        | none => none
        | some s4 =>
          tryAlts (fun d s5 =>
            match matchWs s5 with
            | none => none
            | some s6 =>
              tryAlts (fun h s7 =>
                match matchLit ':' s7 with
                | none => none
                | some s8 =>
                  tryAlts (fun mi s9 =>
                    if s9.isEmpty then mkDatetime y mo d h mi else none)
                    minuteAlts s8)
                hourAlts s6)
            dayAlts s4)
        monthAlts s2

inductive Stage where
  | waitingForText
  | waitingForDatetime
  | waitingForMention
deriving DecidableEq, Repr

/-- The aiogram FSM context for the capture conversation: the current
`ReminderForm` state plus the data dict written by `update_data`. -/
structure CaptureState where
  stage : Stage
  text : Option String
  remindAt : Option DateTime
deriving DecidableEq, Repr

/-- `handle_datetime` (src/app/handlers/reminders.py:74-98), as dispatched
at the `waiting_for_datetime` stage. A parse failure or a parsed value
with `remind_at <= datetime.now()` is caught, a re-prompt is answered and
the handler returns with the FSM context untouched; otherwise `remind_at`
is buffered and the state advances to `waiting_for_mention`. `now` is the
minute-truncated wall clock: since the parsed value has zero seconds,
`parsed <= datetime.now()` holds exactly when `parsed <= floor-to-minute(now)`. -/
def handle_datetime (now : DateTime) (input : String) (st : CaptureState) :
    CaptureState :=
  match parse_datetime input with
  | none => st
  | some d =>
    if dtLe d now then st
    else { st with stage := .waitingForMention, remindAt := some d }

/-- Formalisation of the claim's words (C9), for comparison with the code:
input parses under exactly the literal pattern `YYYY-MM-DD HH:MM` — a
four-digit year, two-digit month, day, hour and minute, with `-`, a single
space and `:` as separators — and denotes a valid calendar instant. -/
def specLiteralParse (input : String) : Option DateTime :=
  match input.toList with
  | [y1, y2, y3, y4, s1, m1, m2, s2, d1, d2, sp, h1, h2, co, n1, n2] =>
    if y1.isDigit && y2.isDigit && y3.isDigit && y4.isDigit &&
        s1 == '-' && m1.isDigit && m2.isDigit && s2 == '-' &&
        d1.isDigit && d2.isDigit && sp == ' ' && h1.isDigit && h2.isDigit &&
        co == ':' && n1.isDigit && n2.isDigit then
      mkDatetime
        (1000 * digitVal y1 + 100 * digitVal y2 + 10 * digitVal y3 +
          digitVal y4)
        (10 * digitVal m1 + digitVal m2) (10 * digitVal d1 + digitVal d2)
        (10 * digitVal h1 + digitVal h2) (10 * digitVal n1 + digitVal n2)
    else none
  | _ => none

/-- A store fresh from `_ensure_schema` on an empty database. -/
def emptyStore : Store :=
  { hasStatusColumn := true, hasMentionIdColumn := true,
    hasMentionNameColumn := true, rows := [], nextId := 1 }

/-- The per-row effect of the `mark_sent` UPDATE. -/
def sentRow (r : Row) : Row := { r with is_sent := true, status := .sent }

/-- The per-row effect of the `mark_failed` UPDATE when the guard holds. -/
def failedRow (r : Row) : Row := { r with status := .failed }

/-- Accumulated effect of the `mark_failed` calls issued for a set of ids
during one worker tick. -/
def failUpd (ids : List Nat) (r : Row) : Row :=
  if ids.contains r.id && r.status == .scheduled then failedRow r else r

/-- Accumulated effect of the final `mark_sent` call of one worker tick. -/
def sentUpd (ids : List Nat) (r : Row) : Row :=
  if ids.contains r.id then sentRow r else r

/-- The invariant of claim C8: the legacy `is_sent` flag is 1 exactly on
`sent` rows and 0 exactly on `scheduled` rows. -/
def flagStatusOk (s : Store) : Prop :=
  ∀ r ∈ s.rows, (r.is_sent = true ↔ r.status = .sent) ∧
    (r.is_sent = false ↔ r.status = .scheduled)

/-- The weaker direction actually needed by `due_reminders`: a scheduled
row still has its legacy flag at 0. Every reachable store state satisfies
it (see the C8 theorem; the modelled mutators never touch `is_sent`). -/
def flagConsistent (s : Store) : Prop :=
  ∀ r ∈ s.rows, r.status = .scheduled → r.is_sent = false

/-- The row condition named by claim C6: status scheduled and remind_at
at or before `now`. -/
def rowMatchesDue (now : DateTime) (r : Row) : Bool :=
  r.status == .scheduled && sqliteLe r.remind_at (isoMin now)

/-- A row in the terminal `cancelled` state (legacy flag 0), used as a
concrete test vehicle. -/
def sampleCancelledRow : Row :=
  { id := 1, chat_id := 1, creator_id := 1, text := "x",
    remind_at := ("2024-01-01T00:00").toList, is_sent := false,
    status := .cancelled, mention_target_id := none,
    mention_target_name := none, created_at := [] }

/-- A fully-migrated-schema store holding one cancelled reminder. -/
def cancelledStore : Store :=
  { hasStatusColumn := true, hasMentionIdColumn := true,
    hasMentionNameColumn := true, rows := [sampleCancelledRow], nextId := 2 }

/-- Two scheduled, already-due rows for exercising the worker tick. -/
def dueRowOne : Row :=
  { id := 1, chat_id := 7, creator_id := 42, text := "a",
    remind_at := ("2024-01-01T00:00").toList, is_sent := false,
    status := .scheduled, mention_target_id := none,
    mention_target_name := none, created_at := [] }

def dueRowTwo : Row :=
  { id := 2, chat_id := 7, creator_id := 42, text := "b",
    remind_at := ("2024-01-02T00:00").toList, is_sent := false,
    status := .scheduled, mention_target_id := none,
    mention_target_name := none, created_at := [] }

def twoDueStore : Store :=
  { hasStatusColumn := true, hasMentionIdColumn := true,
    hasMentionNameColumn := true, rows := [dueRowOne, dueRowTwo], nextId := 3 }

/-! ### Order infrastructure

SQLite compares the stored `remind_at` TEXT values with memcmp. The store
always writes them through `isoformat(timespec="minutes")`, a fixed-width
zero-padded rendering, so memcmp order on two such strings agrees with
Python's field-lexicographic `datetime` order. The lemmas below prove
this. -/

theorem ordering_then_assoc (o1 o2 o3 : Ordering) :
    (o1.then o2).then o3 = o1.then (o2.then o3) := by
  cases o1 <;> rfl

theorem ordering_then_swap (o1 o2 : Ordering) :
    (o1.then o2).swap = o1.swap.then o2.swap := by
  cases o1 <;> rfl

theorem nat_compare_swap (a b : Nat) : compare a b = (compare b a).swap := by
  rcases Nat.lt_trichotomy a b with h | h | h
  · rw [Nat.compare_eq_lt.2 h, Nat.compare_eq_gt.2 h]; rfl
  · rw [Nat.compare_eq_eq.2 h, Nat.compare_eq_eq.2 h.symm]; rfl
  · rw [Nat.compare_eq_gt.2 h, Nat.compare_eq_lt.2 h]; rfl

theorem sqliteCmp_self (x : List Char) : sqliteCmp x x = .eq := by
  induction x with
  | nil => rfl
  | cons a as ih => simp [sqliteCmp, Nat.compare_eq_eq.2 rfl, ih, Ordering.then]

theorem sqliteCmp_swap (x y : List Char) : sqliteCmp x y = (sqliteCmp y x).swap := by
  induction x generalizing y with
  | nil => cases y <;> rfl
  | cons a as ih =>
    cases y with
    | nil => rfl
    | cons b bs =>
      simp only [sqliteCmp, ordering_then_swap, ih bs, nat_compare_swap a.toNat b.toNat]

theorem sqliteLe_nil (z : List Char) : sqliteLe [] z = true := by
  cases z <;> rfl

theorem sqliteLe_trans {x y z : List Char} (h1 : sqliteLe x y = true)
    (h2 : sqliteLe y z = true) : sqliteLe x z = true := by
  induction x generalizing y z with
  | nil => exact sqliteLe_nil z
  | cons a as ih =>
    cases y with
    | nil => simp [sqliteLe, sqliteCmp] at h1
    | cons b bs =>
      cases z with
      | nil => simp [sqliteLe, sqliteCmp] at h2
      | cons c cs =>
        simp only [sqliteLe, sqliteCmp] at h1 h2 ⊢
        rcases hab : compare a.toNat b.toNat with _ | _ | _ <;>
          rcases hbc : compare b.toNat c.toNat with _ | _ | _ <;>
            rw [hab] at h1 <;> rw [hbc] at h2 <;>
              simp only [Ordering.then] at h1 h2 ⊢
        · rw [Nat.compare_eq_lt.2 (Nat.lt_trans (Nat.compare_eq_lt.1 hab)
            (Nat.compare_eq_lt.1 hbc))]
        · rw [Nat.compare_eq_eq.1 hbc] at hab; rw [hab]
        · cases h2
        · rw [Nat.compare_eq_eq.1 hab, hbc]
        · rw [Nat.compare_eq_eq.1 hab, hbc]; exact ih h1 h2
        · rw [Nat.compare_eq_eq.1 hab, hbc]; exact h2
        · cases h1
        · cases h1
        · cases h1

theorem sqliteLe_total (x y : List Char) :
    sqliteLe x y = true ∨ sqliteLe y x = true := by
  rcases h : sqliteCmp x y with _ | _ | _
  · left; simp [sqliteLe, h]
  · left; simp [sqliteLe, h]
  · right
    have hs := sqliteCmp_swap y x
    rw [h] at hs
    simp [sqliteLe, hs, Ordering.swap]

theorem digitChar10_cmp :
    ∀ i < 10, ∀ j < 10,
      compare (digitChar10 i).toNat (digitChar10 j).toNat = compare i j := by
  decide

theorem padNum_length (w n : Nat) : (padNum w n).length = w := by
  induction w generalizing n with
  | zero => rfl
  | succ w ih => simp [padNum, ih]

theorem compare_then_divmod (q a b : Nat) (_hq : 0 < q) :
    (compare (a / q) (b / q)).then (compare (a % q) (b % q)) = compare a b := by
  rcases Nat.lt_trichotomy (a / q) (b / q) with h | h | h
  · have hab : a < b := by
      by_contra hc
      exact absurd (Nat.div_le_div_right (Nat.le_of_not_lt hc)) (Nat.not_le_of_lt h)
    rw [Nat.compare_eq_lt.2 h, Nat.compare_eq_lt.2 hab]; rfl
  · have e1 := Nat.div_add_mod a q
    have e2 := Nat.div_add_mod b q
    rw [h] at e1
    rw [Nat.compare_eq_eq.2 h]
    rcases Nat.lt_trichotomy (a % q) (b % q) with h2 | h2 | h2
    · rw [Nat.compare_eq_lt.2 h2, Nat.compare_eq_lt.2 (by omega)]; rfl
    · rw [Nat.compare_eq_eq.2 h2, Nat.compare_eq_eq.2 (by omega)]; rfl
    · rw [Nat.compare_eq_gt.2 h2, Nat.compare_eq_gt.2 (by omega)]; rfl
  · have hab : b < a := by
      by_contra hc
      exact absurd (Nat.div_le_div_right (Nat.le_of_not_lt hc)) (Nat.not_le_of_lt h)
    rw [Nat.compare_eq_gt.2 h, Nat.compare_eq_gt.2 hab]; rfl

theorem padNum_cmp (w : Nat) :
    ∀ a b : Nat, a < 10 ^ w → b < 10 ^ w →
      sqliteCmp (padNum w a) (padNum w b) = compare a b := by
  induction w with
  | zero =>
    intro a b ha hb
    interval_cases a
    interval_cases b
    rfl
  | succ w ih =>
    intro a b ha hb
    have hda : a / 10 ^ w % 10 = a / 10 ^ w := by
      apply Nat.mod_eq_of_lt
      apply Nat.div_lt_of_lt_mul
      calc a < 10 ^ (w + 1) := ha
        _ = 10 ^ w * 10 := by ring
    have hdb : b / 10 ^ w % 10 = b / 10 ^ w := by
      apply Nat.mod_eq_of_lt
      apply Nat.div_lt_of_lt_mul
      calc b < 10 ^ (w + 1) := hb
        _ = 10 ^ w * 10 := by ring
    have hma : a % 10 ^ w < 10 ^ w := Nat.mod_lt _ (Nat.pos_pow_of_pos w (by omega))
    have hmb : b % 10 ^ w < 10 ^ w := Nat.mod_lt _ (Nat.pos_pow_of_pos w (by omega))
    simp only [padNum, sqliteCmp]
    rw [digitChar10_cmp _ (by omega) _ (by omega),
      ih (a % 10 ^ w) (b % 10 ^ w) hma hmb, hda, hdb]
    exact compare_then_divmod (10 ^ w) a b (Nat.pos_pow_of_pos w (by omega))

/-- Field bounds under which the fixed-width ISO rendering is faithful;
every calendar-valid datetime satisfies them. -/
def dtBounded (d : DateTime) : Prop :=
  d.year < 10 ^ 4 ∧ d.month < 10 ^ 2 ∧ d.day < 10 ^ 2 ∧ d.hour < 10 ^ 2 ∧
    d.minute < 10 ^ 2

theorem sqliteCmp_cons_same (c : Char) (xs ys : List Char) :
    sqliteCmp (c :: xs) (c :: ys) = sqliteCmp xs ys := by
  simp [sqliteCmp, Nat.compare_eq_eq.2 rfl, Ordering.then]

theorem sqliteCmp_append {xs ys : List Char} (zs ws : List Char)
    (h : xs.length = ys.length) :
    sqliteCmp (xs ++ zs) (ys ++ ws) = (sqliteCmp xs ys).then (sqliteCmp zs ws) := by
  induction xs generalizing ys with
  | nil =>
    cases ys with
    | nil => simp [sqliteCmp, Ordering.then]
    | cons b bs => simp at h
  | cons a as ih =>
    cases ys with
    | nil => simp at h
    | cons b bs =>
      simp only [List.cons_append, sqliteCmp]
      rw [show as.append zs = as ++ zs from rfl, show bs.append ws = bs ++ ws from rfl,
        ih (by simpa using h), ordering_then_assoc]

theorem isoMin_cmp {a b : DateTime} (ha : dtBounded a) (hb : dtBounded b) :
    sqliteCmp (isoMin a) (isoMin b) = dtCompare a b := by
  obtain ⟨ha1, ha2, ha3, ha4, ha5⟩ := ha
  obtain ⟨hb1, hb2, hb3, hb4, hb5⟩ := hb
  unfold isoMin dtCompare
  rw [sqliteCmp_append _ _ (by simp [padNum_length]),
    padNum_cmp 4 _ _ ha1 hb1, sqliteCmp_cons_same,
    sqliteCmp_append _ _ (by simp [padNum_length]),
    padNum_cmp 2 _ _ ha2 hb2, sqliteCmp_cons_same,
    sqliteCmp_append _ _ (by simp [padNum_length]),
    padNum_cmp 2 _ _ ha3 hb3, sqliteCmp_cons_same,
    sqliteCmp_append _ _ (by simp [padNum_length]),
    padNum_cmp 2 _ _ ha4 hb4, sqliteCmp_cons_same,
    padNum_cmp 2 _ _ ha5 hb5]

theorem dtCompare_self (a : DateTime) : dtCompare a a = .eq := by
  simp [dtCompare, Nat.compare_eq_eq.2 rfl, Ordering.then]

theorem dtCompare_swap (a b : DateTime) : dtCompare a b = (dtCompare b a).swap := by
  simp only [dtCompare, nat_compare_swap a.year b.year,
    nat_compare_swap a.month b.month, nat_compare_swap a.day b.day,
    nat_compare_swap a.hour b.hour, nat_compare_swap a.minute b.minute,
    ← ordering_then_swap]

theorem sqliteLe_refl (x : List Char) : sqliteLe x x = true := by
  simp [sqliteLe, sqliteCmp_self]

theorem isoMin_le {a b : DateTime} (ha : dtBounded a) (hb : dtBounded b) :
    sqliteLe (isoMin a) (isoMin b) = dtLe a b := by
  unfold sqliteLe dtLe
  rw [isoMin_cmp ha hb]

theorem dtLe_false_of_lt {t f : DateTime} (h : dtCompare t f = .lt) :
    dtLe f t = false := by
  unfold dtLe
  rw [dtCompare_swap f t, h]
  rfl

/-! ### Migration (claim C5) -/

theorem migrationFix_fix (r : Row) : migrationFix (migrationFix r) = migrationFix r := by
  rcases r with ⟨i, c, u, t, ra, snt, st, mi, mn, ca⟩
  cases snt <;> cases st <;> simp [migrationFix, migrationNeedsFix]

theorem migrationFix_status (r : Row) :
    (migrationFix r).status = .scheduled ∨ (migrationFix r).status = .sent := by
  rcases r with ⟨i, c, u, t, ra, snt, st, mi, mn, ca⟩
  cases snt <;> cases st <;> simp [migrationFix, migrationNeedsFix]

/-- C5 (amended): the startup migration is idempotent in the sense that a
second run yields a store identical to the first run's result
(`ensure_schema ∘ ensure_schema = ensure_schema`); however it is *not* a
no-op on rows carrying `completed`, `cancelled` or `failed` statuses — the
backfill UPDATE rewrites every such row to `sent` (if `is_sent = 1`) or
`scheduled` (if `is_sent = 0`), so a migrated store never carries a
terminal status. -/
theorem ensure_schema_idempotent (s : Store) :
    ensure_schema (ensure_schema s) = ensure_schema s ∧
      ∀ r ∈ (ensure_schema s).rows,
        r.status = .scheduled ∨ r.status = .sent := by
  constructor
  · simp [ensure_schema, List.map_map, Function.comp, migrationFix_fix]
  · intro r hr
    simp only [ensure_schema, List.mem_map] at hr
    obtain ⟨r0, _, rfl⟩ := hr
    exact migrationFix_status r0

/-- Witness for C5's theorem: instantiated at the concrete one-row store. -/
theorem ensure_schema_idempotent_witness :
    (migrationFix sampleCancelledRow) ∈ (ensure_schema cancelledStore).rows ∧
      ((migrationFix sampleCancelledRow).status = .scheduled ∨
        (migrationFix sampleCancelledRow).status = .sent) :=
  ⟨by decide, (ensure_schema_idempotent cancelledStore).2
    (migrationFix sampleCancelledRow) (by decide)⟩

/-- C5 counterexample: an already-migrated-schema store holding one
`cancelled` row (`is_sent = 0`) is changed by running the migration — the
backfill UPDATE rewrites the row's status to `scheduled` — refuting the
claim that a second run on a store whose rows carry completed, cancelled
or failed statuses changes no row. -/
theorem ensure_schema_changes_cancelled_row :
    sampleCancelledRow.status = .cancelled ∧
      (ensure_schema cancelledStore).rows.map Row.status = [.scheduled] ∧
      ensure_schema cancelledStore ≠ cancelledStore := by
  decide

/-! ### mark_sent (claims C1 and C10) -/

theorem sentUpd_idem (ids : List Nat) (r : Row) :
    sentUpd ids (sentUpd ids r) = sentUpd ids r := by
  by_cases h : ids.contains r.id = true
  · unfold sentUpd
    rw [if_pos h]
    have h2 : ids.contains (sentRow r).id = true := h
    rw [if_pos h2]
    rfl
  · unfold sentUpd
    rw [if_neg h, if_neg h]

/-- C1 (amended): `mark_sent` is unconditional — it sets `is_sent = 1` and
`status = 'sent'` for every listed id whatever its previous status
(`scheduled`, `failed`, `cancelled`, `completed` or already `sent`), leaves
every unlisted row untouched, never errors (it is a total function), and is
idempotent: a second call with the same id set leaves the store unchanged
with every listed row in status `sent`. -/
theorem mark_sent_unconditional (ids : List Nat) (s : Store) :
    (mark_sent ids s).1.rows = s.rows.map (sentUpd ids) ∧
      (mark_sent ids ((mark_sent ids s).1)).1 = (mark_sent ids s).1 := by
  constructor
  · cases ids with
    | nil =>
      show s.rows = s.rows.map (sentUpd [])
      rw [show s.rows.map (sentUpd []) = s.rows.map id from
        List.map_congr_left fun r _ => rfl, List.map_id]
    | cons i t => rfl
  · rcases s with ⟨f1, f2, f3, rows, nid⟩
    cases ids with
    | nil => rfl
    | cons i t =>
      show Store.mk f1 f2 f3
          ((rows.map (sentUpd (i :: t))).map (sentUpd (i :: t))) nid =
        Store.mk f1 f2 f3 (rows.map (sentUpd (i :: t))) nid
      rw [List.map_map]
      exact congrArg (fun X => Store.mk f1 f2 f3 X nid)
        (List.map_congr_left fun r _ => sentUpd_idem (i :: t) r)

/-- C1 counterexample: a listed id whose status is `cancelled` is *not*
left untouched — `mark_sent` rewrites it to `sent` with `is_sent = 1`. -/
theorem mark_sent_touches_cancelled :
    sampleCancelledRow.status = .cancelled ∧
      (mark_sent [1] cancelledStore).1.rows.map Row.status = [.sent] ∧
      (mark_sent [1] cancelledStore).1 ≠ cancelledStore := by
  decide

/-- C10: `mark_sent` with an empty id collection returns before reaching
the UPDATE/commit: the store value is returned unchanged and the commit
flag is false. -/
theorem mark_sent_empty_noop (s : Store) : mark_sent [] s = (s, false) := rfl

/-! ### Guarded mutators (claim C3) -/

theorem conditional_update_miss (hit : Row → Bool) (upd : Row → Row)
    (rows : List Row) (h : ∀ r ∈ rows, hit r = false) :
    rows.any hit = false ∧
      rows.map (fun r => if hit r then upd r else r) = rows := by
  constructor
  · exact List.any_eq_false.2 fun r hr => by simp [h r hr]
  · calc rows.map (fun r => if hit r then upd r else r)
        = rows.map id := List.map_congr_left fun r hr => by simp [h r hr]
      _ = rows := List.map_id rows

theorem store_with_rows_eq (s : Store) (X : List Row) (h : X = s.rows) :
    { s with rows := X } = s := by
  cases s
  simp_all

theorem boolHit_false {r : Row} {rid : Nat} {c u : Int} {b : Bool}
    (h : ¬(r.id = rid ∧ r.chat_id = c ∧ r.creator_id = u ∧ b = true)) :
    (r.id == rid && r.chat_id == c && r.creator_id == u && b) = false := by
  cases hb : (r.id == rid && r.chat_id == c && r.creator_id == u && b)
  · rfl
  · exfalso
    simp only [Bool.and_eq_true, beq_iff_eq] at hb
    exact h ⟨hb.1.1.1, hb.1.1.2, hb.1.2, hb.2⟩

/-- C3: `cancel_reminder`, `complete_reminder` and `reschedule_reminder`
return a plain boolean (as total functions they can never raise), and
whenever no row matches the requested id under the caller's
`conversationId`/`creatorId` in a status the operation permits
(`scheduled` for cancel and reschedule, `scheduled` or `sent` for
complete), they return `false` and leave the store completely unchanged. -/
theorem mutators_guarded (rid : Nat) (c u : Int) (nt : DateTime) (s : Store) :
    ((∀ r ∈ s.rows, ¬(r.id = rid ∧ r.chat_id = c ∧ r.creator_id = u ∧
        r.status = .scheduled)) →
      cancel_reminder rid c u s = (false, s)) ∧
    ((∀ r ∈ s.rows, ¬(r.id = rid ∧ r.chat_id = c ∧ r.creator_id = u ∧
        (r.status = .scheduled ∨ r.status = .sent))) →
      complete_reminder rid c u s = (false, s)) ∧
    ((∀ r ∈ s.rows, ¬(r.id = rid ∧ r.chat_id = c ∧ r.creator_id = u ∧
        r.status = .scheduled)) →
      reschedule_reminder rid c u nt s = (false, s)) := by
  refine ⟨fun h => ?_, fun h => ?_, fun h => ?_⟩
  · have hm := conditional_update_miss
      (fun r => r.id == rid && r.chat_id == c && r.creator_id == u &&
        r.status == Status.scheduled)
      (fun r => { r with status := .cancelled }) s.rows
      (fun r hr => boolHit_false fun hc =>
        h r hr ⟨hc.1, hc.2.1, hc.2.2.1, beq_iff_eq.1 hc.2.2.2⟩)
    simp only [cancel_reminder]
    exact Prod.ext hm.1 (store_with_rows_eq s _ hm.2)
  · have hm := conditional_update_miss
      (fun r => r.id == rid && r.chat_id == c && r.creator_id == u &&
        (r.status == Status.scheduled || r.status == Status.sent))
      (fun r => { r with status := .completed }) s.rows
      (fun r hr => boolHit_false fun hc =>
        h r hr ⟨hc.1, hc.2.1, hc.2.2.1, by
          rcases Bool.or_eq_true_iff.1 hc.2.2.2 with h2 | h2
          · exact Or.inl (beq_iff_eq.1 h2)
          · exact Or.inr (beq_iff_eq.1 h2)⟩)
    simp only [complete_reminder]
    exact Prod.ext hm.1 (store_with_rows_eq s _ hm.2)
  · have hm := conditional_update_miss
      (fun r => r.id == rid && r.chat_id == c && r.creator_id == u &&
        r.status == Status.scheduled)
      (fun r => { r with remind_at := isoMin nt }) s.rows
      (fun r hr => boolHit_false fun hc =>
        h r hr ⟨hc.1, hc.2.1, hc.2.2.1, beq_iff_eq.1 hc.2.2.2⟩)
    simp only [reschedule_reminder]
    exact Prod.ext hm.1 (store_with_rows_eq s _ hm.2)

/-- Witness for C3's theorem: on the one-row cancelled store, a cancel, a
complete and a reschedule aimed at a nonexistent id 9 all return false and
leave the store unchanged. -/
theorem mutators_guarded_witness :
    cancel_reminder 9 1 1 cancelledStore = (false, cancelledStore) ∧
      complete_reminder 9 1 1 cancelledStore = (false, cancelledStore) ∧
      reschedule_reminder 9 1 1 ⟨2030, 1, 1, 0, 0⟩ cancelledStore =
        (false, cancelledStore) :=
  ⟨(mutators_guarded 9 1 1 ⟨2030, 1, 1, 0, 0⟩ cancelledStore).1 (by decide),
    (mutators_guarded 9 1 1 ⟨2030, 1, 1, 0, 0⟩ cancelledStore).2.1 (by decide),
    (mutators_guarded 9 1 1 ⟨2030, 1, 1, 0, 0⟩ cancelledStore).2.2 (by decide)⟩

/-! ### add_reminder (claim C4) -/

/-- C4 (amended): `add_reminder` performs no validation at all — for every
input, including an empty `text` and a `remind_at` that is not in the
future, it durably appends exactly one row in `scheduled` state carrying
the given field values and returns that row's fresh id. (Future-ness of
user-entered datetimes is enforced by the handlers before `add_reminder`
is called; no ValidationError exists at the store boundary.) -/
theorem add_reminder_total_spec (c u : Int) (text : String) (rAt : DateTime)
    (mid : Option Int) (mname : Option String) (cAt : List Char) (s : Store) :
    (add_reminder c u text rAt mid mname cAt s).1 = s.nextId ∧
      (add_reminder c u text rAt mid mname cAt s).2.rows =
        s.rows ++
          [{ id := s.nextId, chat_id := c, creator_id := u, text := text,
             remind_at := isoMin rAt, is_sent := false, status := .scheduled,
             mention_target_id := mid, mention_target_name := mname,
             created_at := cAt }] ∧
      (add_reminder c u text rAt mid mname cAt s).2.rows.length =
        s.rows.length + 1 ∧
      (add_reminder c u text rAt mid mname cAt s).2.nextId = s.nextId + 1 :=
  ⟨rfl, rfl, by simp [add_reminder], rfl⟩

/-- C4 counterexample: called with an empty `text` (and a `remind_at` in
the distant past, not after any plausible "now"), `add_reminder` does not
fail with a ValidationError — it is a total function that successfully
inserts one scheduled row and returns its id. -/
theorem add_reminder_no_validation :
    (add_reminder 1 1 "" ⟨2000, 1, 1, 0, 0⟩ none none [] emptyStore).1 = 1 ∧
      (add_reminder 1 1 "" ⟨2000, 1, 1, 0, 0⟩ none none []
        emptyStore).2.rows.map Row.status = [.scheduled] ∧
      (add_reminder 1 1 "" ⟨2000, 1, 1, 0, 0⟩ none none []
        emptyStore).2.rows.length = 1 := by
  decide

/-! ### Legacy flag invariant (claim C8) -/

theorem migrationFix_flag (r : Row) :
    ((migrationFix r).is_sent = true ↔ (migrationFix r).status = .sent) ∧
      ((migrationFix r).is_sent = false ↔ (migrationFix r).status = .scheduled) := by
  rcases r with ⟨i, c, u, t, ra, snt, st, mi, mn, ca⟩
  cases snt <;> cases st <;> simp [migrationFix, migrationNeedsFix]

/-- C8: the legacy `is_sent` flag is a derived view of `status` — 1 exactly
on `sent` rows, 0 exactly on `scheduled` rows — and this never breaks under
the schema migration (which establishes it from any starting content),
`add_reminder`, or `mark_sent`; hence it holds in every store state
reachable through these operations. -/
theorem flag_status_invariant :
    (∀ s, flagStatusOk (ensure_schema s)) ∧
      (∀ (c u : Int) (text : String) (rAt : DateTime) (mid : Option Int)
          (mname : Option String) (cAt : List Char) (s : Store),
        flagStatusOk s → flagStatusOk (add_reminder c u text rAt mid mname cAt s).2) ∧
      (∀ (ids : List Nat) (s : Store),
        flagStatusOk s → flagStatusOk (mark_sent ids s).1) := by
  refine ⟨fun s r hr => ?_, fun c u text rAt mid mname cAt s h r hr => ?_,
    fun ids s h r hr => ?_⟩
  · simp only [ensure_schema, List.mem_map] at hr
    obtain ⟨r0, _, rfl⟩ := hr
    exact migrationFix_flag r0
  · simp only [add_reminder, List.mem_append, List.mem_singleton] at hr
    rcases hr with hr | rfl
    · exact h r hr
    · simp
  · unfold mark_sent at hr
    by_cases he : ids.isEmpty
    · rw [if_pos he] at hr
      exact h r hr
    · rw [if_neg he] at hr
      simp only [List.mem_map] at hr
      obtain ⟨r0, hr0, rfl⟩ := hr
      by_cases hc : r0.id ∈ ids <;> simp [hc]
      exact h r0 hr0

/-- Witness for C8's theorem at concrete stores. -/
theorem flag_status_invariant_witness :
    flagStatusOk (ensure_schema cancelledStore) ∧
      flagStatusOk
        (add_reminder 7 42 "Meeting" ⟨2030, 1, 1, 12, 0⟩ none none []
          emptyStore).2 ∧
      flagStatusOk
        (mark_sent [1]
          (add_reminder 7 42 "Meeting" ⟨2030, 1, 1, 12, 0⟩ none none []
            emptyStore).2).1 :=
  ⟨flag_status_invariant.1 cancelledStore,
    flag_status_invariant.2.1 7 42 "Meeting" ⟨2030, 1, 1, 12, 0⟩ none none []
      emptyStore (by simp [flagStatusOk, emptyStore]),
    flag_status_invariant.2.2 [1] _
      (flag_status_invariant.2.1 7 42 "Meeting" ⟨2030, 1, 1, 12, 0⟩ none none []
        emptyStore (by simp [flagStatusOk, emptyStore]))⟩

/-! ### due_reminders (claim C6) -/

theorem remindAtLe_trans (a b c : Row) (h1 : remindAtLe a b) (h2 : remindAtLe b c) :
    remindAtLe a c := sqliteLe_trans h1 h2

theorem remindAtLe_total (a b : Row) : remindAtLe a b || remindAtLe b a := by
  rcases sqliteLe_total a.remind_at b.remind_at with h | h <;>
    simp [remindAtLe, h]

theorem dueRowPred_eq_of_flagConsistent {s : Store} (h : flagConsistent s)
    (now : DateTime) : ∀ r ∈ s.rows, dueRowPred now r = rowMatchesDue now r := by
  intro r hr
  unfold dueRowPred rowMatchesDue
  by_cases hs : r.status = .scheduled
  · rw [h r hr hs]
    simp [hs]
  · simp [beq_eq_false_iff_ne.2 hs]

theorem mem_due_of_le_limit (now : DateTime) (limit : Nat) (s : Store)
    (h : flagConsistent s)
    (hlen : (s.rows.filter (rowMatchesDue now)).length ≤ limit)
    (r : Row) (hr : r ∈ s.rows) (hp : rowMatchesDue now r = true) :
    r ∈ due_reminders now limit s := by
  unfold due_reminders
  rw [List.filter_congr (dueRowPred_eq_of_flagConsistent h now)]
  rw [List.take_of_length_le (by
    rw [List.length_mergeSort]
    exact hlen)]
  exact List.mem_mergeSort.2 (List.mem_filter.2 ⟨hr, hp⟩)

/-- C6: with the legacy flag consistent (true in every reachable store
state), `due_reminders` returns only rows that are `scheduled` with
`remind_at` at or before `now` — so a `failed`, `cancelled` or `completed`
row never appears regardless of its `remind_at` — in ascending `remind_at`
order and at most `limit` of them; and it returns *all* such rows whenever
they number at most `limit`. -/
theorem due_reminders_spec (now : DateTime) (limit : Nat) (s : Store)
    (h : flagConsistent s) :
    (due_reminders now limit s).length ≤ limit ∧
      (∀ r ∈ due_reminders now limit s,
        r.status = .scheduled ∧ sqliteLe r.remind_at (isoMin now) = true ∧
          r.status ≠ .failed ∧ r.status ≠ .cancelled ∧ r.status ≠ .completed) ∧
      List.Pairwise (fun a b => remindAtLe a b = true) (due_reminders now limit s) ∧
      ((s.rows.filter (rowMatchesDue now)).length ≤ limit →
        ∀ r ∈ s.rows, rowMatchesDue now r = true →
          r ∈ due_reminders now limit s) := by
  refine ⟨List.length_take_le _ _, fun r hr => ?_, ?_,
    fun hlen r hr hp => mem_due_of_le_limit now limit s h hlen r hr hp⟩
  · have hm : r ∈ (s.rows.filter (dueRowPred now)).mergeSort remindAtLe :=
      List.mem_of_mem_take hr
    have hf : r ∈ s.rows.filter (dueRowPred now) := List.mem_mergeSort.1 hm
    have hp := (List.mem_filter.1 hf).2
    simp only [dueRowPred, Bool.and_eq_true, beq_iff_eq] at hp
    refine ⟨hp.1.1, hp.2, ?_, ?_, ?_⟩ <;> rw [hp.1.1] <;> intro hc <;> cases hc
  · have hs := List.sorted_mergeSort
      (fun a b c h1 h2 => remindAtLe_trans a b c h1 h2)
      (fun a b => remindAtLe_total a b)
      (s.rows.filter (dueRowPred now))
    exact hs.sublist (List.take_sublist _ _)

/-- Witness for C6's theorem at a concrete two-row store. -/
theorem due_reminders_spec_witness :
    (due_reminders ⟨2024, 6, 1, 0, 0⟩ 50 twoDueStore).length ≤ 50 ∧
      dueRowOne ∈ due_reminders ⟨2024, 6, 1, 0, 0⟩ 50 twoDueStore :=
  ⟨(due_reminders_spec ⟨2024, 6, 1, 0, 0⟩ 50 twoDueStore
      (by simp [flagConsistent, twoDueStore, dueRowOne, dueRowTwo])).1,
    (due_reminders_spec ⟨2024, 6, 1, 0, 0⟩ 50 twoDueStore
      (by simp [flagConsistent, twoDueStore, dueRowOne, dueRowTwo])).2.2.2
      (by decide) dueRowOne (by decide) (by decide)⟩

/-! ### add followed by due (claim C7) -/

/-- C7: on a fresh store, adding a reminder with a valid non-empty text and
a strictly-future `remindAt = F` and then reading `due(now = F)` returns
exactly that reminder (the store's single row), and the reminder does not
appear in `due(now = t)` for any `t` strictly earlier than `F` — the
TEXT-collation comparison SQLite performs on the stored
`isoformat(timespec="minutes")` strings agrees with datetime order. -/
theorem add_then_due (text : String) (c u : Int) (mid : Option Int)
    (mname : Option String) (cAt : List Char) (F t now0 : DateTime)
    (limit : Nat) (htext : text ≠ "") (hfut : dtCompare now0 F = .lt)
    (hF : dtBounded F) (ht : dtBounded t) (hlim : 1 ≤ limit)
    (hlt : dtCompare t F = .lt) :
    due_reminders F limit (add_reminder c u text F mid mname cAt emptyStore).2 =
        (add_reminder c u text F mid mname cAt emptyStore).2.rows ∧
      due_reminders t limit (add_reminder c u text F mid mname cAt emptyStore).2 =
        [] := by
  have hrows : (add_reminder c u text F mid mname cAt emptyStore).2.rows =
      [{ id := 1, chat_id := c, creator_id := u, text := text,
         remind_at := isoMin F, is_sent := false, status := .scheduled,
         mention_target_id := mid, mention_target_name := mname,
         created_at := cAt }] := rfl
  constructor
  · unfold due_reminders
    rw [hrows]
    rw [show List.filter (dueRowPred F)
        [{ id := 1, chat_id := c, creator_id := u, text := text,
           remind_at := isoMin F, is_sent := false, status := .scheduled,
           mention_target_id := mid, mention_target_name := mname,
           created_at := cAt }] =
        [{ id := 1, chat_id := c, creator_id := u, text := text,
           remind_at := isoMin F, is_sent := false, status := .scheduled,
           mention_target_id := mid, mention_target_name := mname,
           created_at := cAt }] from by
      simp [List.filter_cons, dueRowPred, sqliteLe_refl]]
    rw [List.mergeSort_of_sorted (List.pairwise_singleton _ _)]
    exact List.take_of_length_le (by simpa using hlim)
  · unfold due_reminders
    rw [hrows]
    rw [show List.filter (dueRowPred t)
        [{ id := 1, chat_id := c, creator_id := u, text := text,
           remind_at := isoMin F, is_sent := false, status := .scheduled,
           mention_target_id := mid, mention_target_name := mname,
           created_at := cAt }] = ([] : List Row) from by
      simp [List.filter_cons, dueRowPred, isoMin_le hF ht, dtLe_false_of_lt hlt]]
    simp [List.mergeSort_nil]

/-- Witness for C7's theorem with `F` one minute after `t`. -/
theorem add_then_due_witness :
    due_reminders ⟨2024, 12, 31, 18, 30⟩ 50
        (add_reminder 7 42 "Meeting" ⟨2024, 12, 31, 18, 30⟩ none none []
          emptyStore).2 =
      (add_reminder 7 42 "Meeting" ⟨2024, 12, 31, 18, 30⟩ none none []
        emptyStore).2.rows ∧
    due_reminders ⟨2024, 12, 31, 18, 29⟩ 50
        (add_reminder 7 42 "Meeting" ⟨2024, 12, 31, 18, 30⟩ none none []
          emptyStore).2 = [] :=
  add_then_due "Meeting" 7 42 none none [] ⟨2024, 12, 31, 18, 30⟩
    ⟨2024, 12, 31, 18, 29⟩ ⟨2024, 12, 31, 17, 0⟩ 50 (by decide) (by decide)
    (by constructor <;> simp) (by constructor <;> simp)
    (by decide) (by decide)

/-! ### Delivery loop (claim C2) -/

theorem sentUpd_id (ids : List Nat) (r : Row) : (sentUpd ids r).id = r.id := by
  unfold sentUpd sentRow
  split <;> rfl

theorem failUpd_id (ids : List Nat) (r : Row) : (failUpd ids r).id = r.id := by
  unfold failUpd failedRow
  split <;> rfl

theorem failUpd_not_mem (ids : List Nat) (r : Row) (h : r.id ∉ ids) :
    failUpd ids r = r := by
  unfold failUpd
  have h1 : ids.contains r.id = false := by
    cases hcc : ids.contains r.id
    · rfl
    · exact absurd (List.elem_iff.1 hcc) h
  rw [if_neg (by rw [h1]; simp)]

theorem failUpd_mem_sched (ids : List Nat) (r : Row) (h : r.id ∈ ids)
    (hs : r.status = .scheduled) : failUpd ids r = failedRow r := by
  unfold failUpd
  have h1 : ids.contains r.id = true := List.elem_iff.2 h
  rw [if_pos (by rw [h1, hs]; rfl)]

theorem sentUpd_not_mem (ids : List Nat) (r : Row) (h : r.id ∉ ids) :
    sentUpd ids r = r := by
  unfold sentUpd
  rw [if_neg fun hc => h (List.elem_iff.1 hc)]

theorem sentUpd_mem (ids : List Nat) (r : Row) (h : r.id ∈ ids) :
    sentUpd ids r = sentRow r := by
  unfold sentUpd
  rw [if_pos (List.elem_iff.2 h)]

theorem failUpd_cons (i : Nat) (rest : List Nat) (r : Row) :
    failUpd rest (if r.id == i && r.status == .scheduled then
      { r with status := .failed } else r) = failUpd (i :: rest) r := by
  unfold failUpd failedRow
  by_cases h1 : r.id = i <;> by_cases h2 : r.status = .scheduled <;>
    simp [h1, h2]

theorem worker_fold_rows (sendOk : Row → Bool) :
    ∀ (ds : List Row) (s : Store) (acc : List Nat),
      ((ds.foldl (workerStep sendOk) (s, acc)).1).rows =
        s.rows.map (failUpd ((ds.filter (fun r => !sendOk r)).map Row.id)) := by
  intro ds
  induction ds with
  | nil =>
    intro s acc
    calc (([] : List Row).foldl (workerStep sendOk) (s, acc)).1.rows
        = s.rows := rfl
      _ = s.rows.map id := (List.map_id s.rows).symm
      _ = s.rows.map (failUpd ((([] : List Row).filter
            (fun r => !sendOk r)).map Row.id)) :=
          List.map_congr_left fun r _ => rfl
  | cons d ds ih =>
    intro s acc
    rw [List.foldl_cons]
    by_cases h : sendOk d
    · have hstep : workerStep sendOk (s, acc) d = (s, acc ++ [d.id]) := by
        unfold workerStep
        rw [if_pos h]
      rw [hstep, ih s (acc ++ [d.id])]
      have hfc : (d :: ds).filter (fun r => !sendOk r) =
          ds.filter (fun r => !sendOk r) := by
        simp [List.filter_cons, h]
      rw [hfc]
    · have hstep : workerStep sendOk (s, acc) d = (mark_failed d.id s, acc) := by
        unfold workerStep
        rw [if_neg h]
      rw [hstep, ih (mark_failed d.id s) acc]
      have hfc : (d :: ds).filter (fun r => !sendOk r) =
          d :: ds.filter (fun r => !sendOk r) := by
        simp [List.filter_cons, h]
      rw [hfc]
      show (s.rows.map _).map _ = _
      rw [List.map_map]
      exact List.map_congr_left fun r _ =>
        failUpd_cons d.id ((ds.filter (fun r => !sendOk r)).map Row.id) r

theorem worker_fold_ids (sendOk : Row → Bool) :
    ∀ (ds : List Row) (s : Store) (acc : List Nat),
      (ds.foldl (workerStep sendOk) (s, acc)).2 =
        acc ++ (ds.filter sendOk).map Row.id := by
  intro ds
  induction ds with
  | nil => intro s acc; simp
  | cons d ds ih =>
    intro s acc
    rw [List.foldl_cons]
    by_cases h : sendOk d
    · have hstep : workerStep sendOk (s, acc) d = (s, acc ++ [d.id]) := by
        unfold workerStep
        rw [if_pos h]
      rw [hstep, ih s (acc ++ [d.id])]
      simp [List.filter_cons, h]
    · have hstep : workerStep sendOk (s, acc) d = (mark_failed d.id s, acc) := by
        unfold workerStep
        rw [if_neg h]
      rw [hstep, ih (mark_failed d.id s) acc]
      simp [List.filter_cons, h]

/-- The net per-row effect of one worker tick: the `mark_failed` calls for
the failed due ids followed by the batched `mark_sent` for the succeeded
due ids. -/
theorem tick_rows (now : DateTime) (sendOk : Row → Bool) (s : Store) :
    (reminder_worker_tick now sendOk s).rows =
      s.rows.map (fun r =>
        sentUpd (((due_reminders now 50 s).filter sendOk).map Row.id)
          (failUpd (((due_reminders now 50 s).filter
            (fun r => !sendOk r)).map Row.id) r)) := by
  unfold reminder_worker_tick
  have hrows := worker_fold_rows sendOk (due_reminders now 50 s) s []
  have hids := worker_fold_ids sendOk (due_reminders now 50 s) s []
  rw [List.nil_append] at hids
  by_cases he :
      ((due_reminders now 50 s).foldl (workerStep sendOk) (s, [])).2.isEmpty
  · rw [if_pos he]
    rw [hrows]
    have hsids : ((due_reminders now 50 s).filter sendOk).map Row.id = [] := by
      rw [← hids]
      exact List.isEmpty_iff.1 he
    rw [hsids]
    exact List.map_congr_left fun r _ => rfl
  · rw [if_neg he]
    unfold mark_sent
    rw [if_neg (by rw [hids] at he; rw [hids]; exact he)]
    show (_ : Store).rows.map _ = _
    rw [hrows, hids, List.map_map]
    exact List.map_congr_left fun r _ => rfl

theorem find?_of_nodup_ids (l : List Row) (r : Row) (hmem : r ∈ l)
    (hnd : (l.map Row.id).Nodup) : l.find? (fun q => q.id == r.id) = some r := by
  induction l with
  | nil => cases hmem
  | cons a t ih =>
    by_cases hpa : (a.id == r.id) = true
    · simp only [List.find?_cons, hpa]
      rcases List.mem_cons.1 hmem with rfl | hmem2
      · rfl
      · exfalso
        have : r.id ∈ t.map Row.id := List.mem_map.2 ⟨r, hmem2, rfl⟩
        rw [← beq_iff_eq.1 hpa] at this
        exact (List.nodup_cons.1 (by simpa using hnd)).1 this
    · have hpa2 : (a.id == r.id) = false := by
        revert hpa
        cases a.id == r.id <;> simp
      simp only [List.find?_cons, hpa2]
      rcases List.mem_cons.1 hmem with rfl | hmem2
      · exact absurd (beq_self_eq_true r.id) hpa
      · exact ih hmem2 (List.nodup_cons.1 (by simpa using hnd)).2

theorem due_mem (now : DateTime) (limit : Nat) (s : Store) (r : Row)
    (hr : r ∈ due_reminders now limit s) :
    r ∈ s.rows ∧ dueRowPred now r = true := by
  have hf : r ∈ s.rows.filter (dueRowPred now) :=
    List.mem_mergeSort.1 (List.mem_of_mem_take hr)
  exact ⟨(List.mem_filter.1 hf).1, (List.mem_filter.1 hf).2⟩

theorem due_ids_nodup (now : DateTime) (limit : Nat) (s : Store)
    (h : (s.rows.map Row.id).Nodup) :
    ((due_reminders now limit s).map Row.id).Nodup := by
  have h1 : ((s.rows.filter (dueRowPred now)).map Row.id).Nodup :=
    h.sublist ((List.filter_sublist s.rows).map Row.id)
  have h2 : (((s.rows.filter (dueRowPred now)).mergeSort remindAtLe).map
      Row.id).Nodup :=
    (((List.mergeSort_perm (s.rows.filter (dueRowPred now))
      remindAtLe).map Row.id).nodup_iff).2 h1
  exact h2.sublist ((List.take_sublist _ _).map Row.id)

theorem tick_find (now : DateTime) (sendOk : Row → Bool) (s : Store)
    (h : (s.rows.map Row.id).Nodup) (r : Row) (hmem : r ∈ s.rows) :
    (reminder_worker_tick now sendOk s).rows.find? (fun q => q.id == r.id) =
      some (sentUpd (((due_reminders now 50 s).filter sendOk).map Row.id)
        (failUpd (((due_reminders now 50 s).filter
          (fun r => !sendOk r)).map Row.id) r)) := by
  rw [tick_rows now sendOk s, List.find?_map]
  have hcomp : ((fun q => q.id == r.id) ∘
      (fun r2 => sentUpd (((due_reminders now 50 s).filter sendOk).map Row.id)
        (failUpd (((due_reminders now 50 s).filter
          (fun r => !sendOk r)).map Row.id) r2))) =
      fun q => q.id == r.id :=
    funext fun q => by
      show ((sentUpd _ (failUpd _ q)).id == _) = _
      rw [sentUpd_id, failUpd_id]
  rw [hcomp, find?_of_nodup_ids s.rows r hmem h]
  rfl

/-- C2: the store's `mark_failed` transitions `scheduled` → `failed`, and
one tick of the delivery loop reconciles every due candidate — a candidate
whose send fails ends in status `failed` via the immediate `mark_failed`
call, a candidate whose send succeeds ends in status `sent` via the
batched `mark_sent`, each item independently of the outcomes of the other
items in the batch: one item's delivery failure never aborts processing of
the rest, and rows outside the due batch are untouched. (All operations
are total functions: no id in the batch can error.) -/
theorem worker_tick_spec (now : DateTime) (sendOk : Row → Bool) (s : Store)
    (h : (s.rows.map Row.id).Nodup) :
    (∀ r ∈ due_reminders now 50 s, sendOk r = false →
      (reminder_worker_tick now sendOk s).rows.find? (fun q => q.id == r.id) =
        some { r with status := .failed }) ∧
    (∀ r ∈ due_reminders now 50 s, sendOk r = true →
      (reminder_worker_tick now sendOk s).rows.find? (fun q => q.id == r.id) =
        some { r with is_sent := true, status := .sent }) ∧
    (∀ r ∈ s.rows, r.id ∉ (due_reminders now 50 s).map Row.id →
      r ∈ (reminder_worker_tick now sendOk s).rows) := by
  have hnd := due_ids_nodup now 50 s h
  refine ⟨fun r hr hno => ?_, fun r hr hyes => ?_, fun r hmem hnid => ?_⟩
  · obtain ⟨hmem, hpred⟩ := due_mem now 50 s r hr
    have hsched : r.status = .scheduled := by
      simp only [dueRowPred, Bool.and_eq_true, beq_iff_eq] at hpred
      exact hpred.1.1
    rw [tick_find now sendOk s h r hmem]
    have hfid : r.id ∈ ((due_reminders now 50 s).filter
        (fun r => !sendOk r)).map Row.id :=
      List.mem_map.2 ⟨r, List.mem_filter.2 ⟨hr, by simp [hno]⟩, rfl⟩
    have hnotsid : r.id ∉ ((due_reminders now 50 s).filter sendOk).map Row.id := by
      intro hc
      obtain ⟨r2, hr2, hid2⟩ := List.mem_map.1 hc
      have heq : r2 = r := List.inj_on_of_nodup_map hnd
        (List.mem_filter.1 hr2).1 hr hid2
      have hok := (List.mem_filter.1 hr2).2
      rw [heq, hno] at hok
      cases hok
    rw [failUpd_mem_sched _ r hfid hsched,
      sentUpd_not_mem _ (failedRow r) hnotsid]
    rfl
  · obtain ⟨hmem, _⟩ := due_mem now 50 s r hr
    rw [tick_find now sendOk s h r hmem]
    have hsid : r.id ∈ ((due_reminders now 50 s).filter sendOk).map Row.id :=
      List.mem_map.2 ⟨r, List.mem_filter.2 ⟨hr, hyes⟩, rfl⟩
    have hnotfid : r.id ∉ ((due_reminders now 50 s).filter
        (fun r => !sendOk r)).map Row.id := by
      intro hc
      obtain ⟨r2, hr2, hid2⟩ := List.mem_map.1 hc
      have heq : r2 = r := List.inj_on_of_nodup_map hnd
        (List.mem_filter.1 hr2).1 hr hid2
      have hok := (List.mem_filter.1 hr2).2
      rw [heq, hyes] at hok
      cases hok
    rw [failUpd_not_mem _ r hnotfid, sentUpd_mem _ r hsid]
    rfl
  · rw [tick_rows now sendOk s]
    refine List.mem_map.2 ⟨r, hmem, ?_⟩
    have hnotf : r.id ∉ ((due_reminders now 50 s).filter
        (fun r => !sendOk r)).map Row.id := by
      intro hc
      obtain ⟨r2, hr2, hid2⟩ := List.mem_map.1 hc
      exact hnid (List.mem_map.2 ⟨r2, (List.mem_filter.1 hr2).1, hid2⟩)
    have hnots : r.id ∉ ((due_reminders now 50 s).filter sendOk).map Row.id := by
      intro hc
      obtain ⟨r2, hr2, hid2⟩ := List.mem_map.1 hc
      exact hnid (List.mem_map.2 ⟨r2, (List.mem_filter.1 hr2).1, hid2⟩)
    rw [failUpd_not_mem _ r hnotf, sentUpd_not_mem _ r hnots]

/-- Witness for C2's theorem: two due rows, the first send fails and the
second succeeds — the second is still delivered and committed `sent` while
the first is recorded `failed`. -/
theorem worker_tick_spec_witness :
    (reminder_worker_tick ⟨2024, 6, 1, 0, 0⟩ (fun r => r.id == 2)
        twoDueStore).rows.find? (fun q => q.id == dueRowOne.id) =
      some { dueRowOne with status := .failed } ∧
    (reminder_worker_tick ⟨2024, 6, 1, 0, 0⟩ (fun r => r.id == 2)
        twoDueStore).rows.find? (fun q => q.id == dueRowTwo.id) =
      some { dueRowTwo with is_sent := true, status := .sent } :=
  ⟨(worker_tick_spec ⟨2024, 6, 1, 0, 0⟩ (fun r => r.id == 2) twoDueStore
      (by decide)).1 dueRowOne
      (mem_due_of_le_limit ⟨2024, 6, 1, 0, 0⟩ 50 twoDueStore
        (by simp [flagConsistent, twoDueStore, dueRowOne, dueRowTwo])
        (by decide) dueRowOne (by decide) (by decide))
      (by decide),
    (worker_tick_spec ⟨2024, 6, 1, 0, 0⟩ (fun r => r.id == 2) twoDueStore
      (by decide)).2.1 dueRowTwo
      (mem_due_of_le_limit ⟨2024, 6, 1, 0, 0⟩ 50 twoDueStore
        (by simp [flagConsistent, twoDueStore, dueRowOne, dueRowTwo])
        (by decide) dueRowTwo (by decide) (by decide))
      (by decide)⟩

/-! ### Capture conversation datetime stage (claim C9) -/

/-- C9 (amended): at the awaitingDateTime stage, input is accepted —
advancing to awaitingMention with the parsed value buffered — exactly when
it parses under Python's `strptime` with format `%Y-%m-%d %H:%M` (a
four-digit year, but month, day, hour and minute may omit their zero
padding, any whitespace run may separate date and time, and surrounding
whitespace is stripped) to a valid calendar instant strictly later than
"now" at the moment of parsing; for any other input, including a past or
present timestamp, the handler returns with the FSM context entirely
unchanged — same stage and same buffered text — after answering a
re-prompt. -/
theorem handle_datetime_spec (now : DateTime) (input : String)
    (st : CaptureState) :
    (parse_datetime input = none → handle_datetime now input st = st) ∧
      (∀ d, parse_datetime input = some d → dtLe d now = true →
        handle_datetime now input st = st) ∧
      (∀ d, parse_datetime input = some d → dtLe d now = false →
        handle_datetime now input st =
          { st with stage := .waitingForMention, remindAt := some d }) ∧
      (handle_datetime now input st).text = st.text := by
  refine ⟨fun hp => ?_, fun d hp hle => ?_, fun d hp hle => ?_, ?_⟩
  · unfold handle_datetime
    rw [hp]
  · unfold handle_datetime
    rw [hp]
    exact if_pos hle
  · unfold handle_datetime
    rw [hp]
    exact if_neg (by rw [hle]; simp)
  · unfold handle_datetime
    cases hp : parse_datetime input with
    | none => rfl
    | some d =>
      show (if dtLe d now = true then st
        else { stage := Stage.waitingForMention, text := st.text,
               remindAt := some d } : CaptureState).text = st.text
      by_cases h2 : dtLe d now = true
      · rw [if_pos h2]
      · rw [if_neg h2]

/-- Witness for C9's amended theorem: a padded future input is accepted
and buffered; garbage input leaves the state untouched. -/
theorem handle_datetime_spec_witness :
    handle_datetime ⟨2024, 6, 1, 0, 0⟩ "2024-12-31 18:30"
        ⟨.waitingForDatetime, some "Pay rent", none⟩ =
      ⟨.waitingForMention, some "Pay rent", some ⟨2024, 12, 31, 18, 30⟩⟩ ∧
      handle_datetime ⟨2024, 6, 1, 0, 0⟩ "nonsense"
          ⟨.waitingForDatetime, some "Pay rent", none⟩ =
        ⟨.waitingForDatetime, some "Pay rent", none⟩ :=
  ⟨(handle_datetime_spec ⟨2024, 6, 1, 0, 0⟩ "2024-12-31 18:30"
      ⟨.waitingForDatetime, some "Pay rent", none⟩).2.2.1
      ⟨2024, 12, 31, 18, 30⟩ (by decide) (by decide),
    (handle_datetime_spec ⟨2024, 6, 1, 0, 0⟩ "nonsense"
      ⟨.waitingForDatetime, some "Pay rent", none⟩).1 (by decide)⟩

/-- C9 counterexample: the input "2030-1-1 0:00" is not of the literal
`YYYY-MM-DD HH:MM` shape (month, day and hour lack their zero padding), so
the claim requires a re-prompt with the FSM staying in awaitingDateTime;
the code instead parses it — Python's strptime accepts unpadded fields —
and, the instant being in the future, advances to the mention stage with
the value buffered. -/
theorem handle_datetime_accepts_unpadded :
    specLiteralParse "2030-1-1 0:00" = none ∧
      parse_datetime "2030-1-1 0:00" = some ⟨2030, 1, 1, 0, 0⟩ ∧
      handle_datetime ⟨2025, 6, 15, 12, 0⟩ "2030-1-1 0:00"
          ⟨.waitingForDatetime, some "Pay rent", none⟩ =
        ⟨.waitingForMention, some "Pay rent", some ⟨2030, 1, 1, 0, 0⟩⟩ := by
  decide
